import Mathlib

/-!
Shallow embedding of the document-processing core of `streamlit_app.py`
(class `MockDocumentProcessor` and the table-assembly section of `main`).

Modelling conventions:
* extracted text is a `List Char` (Python `str`);
* Python float score literals are embedded as exact rationals `ℚ`
  (only comparisons of the fixed literal values occur, and the ordering
  of the nearest binary floats agrees with the rational ordering);
* `text.lower()` is `List.map Char.toLower` (the keyword comparisons in
  the source are ASCII-only);
* `'kw' in text` (Python substring test) is `containsTok`;
* a Python dict built from a literal and iterated in insertion order is
  an association list in the literal's order;
* Python `max(d, key=d.get)` (first key attaining the maximum; raises on
  an empty dict) is `maxByFirst`, returning `Option`;
* Python `sorted(items, key=lambda x: x[1], reverse=True)` is the stable
  descending insertion sort `sortedByScoreDesc` (equal keys keep their
  original relative order, as CPython guarantees);
* `summaries.get(name, {}).get('detailed', fallback)` is `summaryFor`
  over an association list whose values model the presence of the
  `'detailed'` field by `Option String`;
* `name.replace(' ', '_')` with a one-character pattern is the
  character-wise map `urlSafe`.
-/

/-- `self.departments` (line 20): the fixed, ordered department catalog. -/
def departments : List String :=
  ["Engineering Drawings", "Legal Opinions", "Finance", "HR Policies",
   "Safety Circulars", "Board Meeting Minutes", "Maintenance Job Cards",
   "Incident Reports", "Vendor Invoices", "Purchase Order Correspondence",
   "Regulatory Directives"]

/-- `self.priorities` (line 21): the ordered priority levels, highest first. -/
def priorities : List String := ["high", "medium", "low"]

/-- Canonical catalog index of a department label: its position in
`departments`. -/
def catIdx (d : String) : Nat := departments.findIdx (fun x => x == d)

/-- Python `text.lower()` restricted to the ASCII lowering the keyword
tests rely on. -/
def lower (t : List Char) : List Char := t.map Char.toLower

/-- Python `w in t` substring containment: some suffix of `t` starts
with `w`. -/
def containsTok (w t : List Char) : Bool :=
  t.tails.any (fun s => w.isPrefixOf s)

/-- The `dept_scores` dict literal of `classify_department`
(lines 34–46), as an association list in insertion order. -/
def dept_scores (t : List Char) : List (String × ℚ) :=
  let tl := lower t
  [("Engineering Drawings",
      if containsTok "engineering".toList tl then mkRat 85 100 else mkRat 30 100),
   ("Legal Opinions",
      if containsTok "legal".toList tl then mkRat 80 100 else mkRat 25 100),
   ("Finance",
      if containsTok "finance".toList tl then mkRat 75 100 else mkRat 35 100),
   ("HR Policies",
      if containsTok "hr".toList tl then mkRat 70 100 else mkRat 28 100),
   ("Safety Circulars",
      if containsTok "safety".toList tl then mkRat 90 100 else mkRat 40 100),
   ("Board Meeting Minutes",
      if containsTok "board".toList tl then mkRat 85 100 else mkRat 32 100),
   ("Maintenance Job Cards",
      if containsTok "maintenance".toList tl then mkRat 65 100 else mkRat 22 100),
   ("Incident Reports",
      if containsTok "incident".toList tl then mkRat 75 100 else mkRat 26 100),
   ("Vendor Invoices",
      if containsTok "vendor".toList tl then mkRat 70 100 else mkRat 24 100),
   ("Purchase Order Correspondence",
      if containsTok "purchase".toList tl then mkRat 68 100 else mkRat 20 100),
   ("Regulatory Directives",
      if containsTok "regulatory".toList tl then mkRat 72 100 else mkRat 18 100)]

/-- Python `max(iterable, key=f)`: keeps the first element whose key is
maximal (a later element replaces the current best only when strictly
greater); `none` on an empty list (Python raises `ValueError`). -/
def maxByFirst (l : List (String × ℚ)) : Option (String × ℚ) :=
  l.foldl
    (fun acc p =>
      match acc with
      | none => some p
      | some q => if q.2 < p.2 then some p else some q)
    none

/-- `classify_department` (lines 29–49): returns
`(primary_dept, dept_scores[primary_dept], dept_scores)`;
`none` models the `ValueError` of `max` on an empty dict
(unreachable here since the dict literal is non-empty). -/
def classify_department (t : List Char) :
    Option (String × ℚ × List (String × ℚ)) :=
  (maxByFirst (dept_scores t)).map (fun p => (p.1, p.2, dept_scores t))

/-- `classify_priority` (lines 51–59). -/
def classify_priority (t : List Char) : String × ℚ :=
  let tl := lower t
  if containsTok "urgent".toList tl then ("High", mkRat 9 10)
  else if containsTok "important".toList tl then ("Medium", mkRat 7 10)
  else ("Low", mkRat 6 10)

/-- `generate_summary` (lines 61–75): the fixed summary dict; the inner
`{'detailed': s}` dict is modelled by `some s` (so `none` models a
missing `'detailed'` field). The `text` argument is unused, exactly as
in the source. -/
def generate_summary (_text : List Char) : List (String × Option String) :=
  [("Engineering Drawings",
      some "Technical specifications and engineering requirements document"),
   ("Legal Opinions",
      some "Legal analysis and compliance documentation"),
   ("Finance",
      some "Financial analysis and budget planning document"),
   ("HR Policies",
      some "Human resources policies and procedures"),
   ("Safety Circulars",
      some "Safety protocols and emergency procedures"),
   ("Board Meeting Minutes",
      some "Board meeting discussions and resolutions"),
   ("Maintenance Job Cards",
      some "Equipment maintenance and service records"),
   ("Incident Reports",
      some "Incident documentation and investigation reports"),
   ("Vendor Invoices",
      some "Vendor payment and invoice processing"),
   ("Purchase Order Correspondence",
      some "Purchase order and procurement communications"),
   ("Regulatory Directives",
      some "Regulatory compliance and directive documentation")]

/-- `summaries.get(dept_name, {}).get('detailed', 'No summary available')`
(line 125): a missing department entry and a missing `'detailed'` field
both fall back to the placeholder. -/
def summaryFor (summaries : List (String × Option String)) (d : String) :
    String :=
  match summaries.lookup d with
  | some (some s) => s
  | _ => "No summary available"

/-- `dept_name.replace(' ', '_')` (line 126): the pattern is a single
character, so the replacement is the character-wise map. -/
def urlSafe (d : String) : String :=
  String.mk (d.toList.map (fun c => if c = ' ' then '_' else c))

/-- `download_url = f"#{dept_name.replace(' ', '_')}"` (line 126). -/
def downloadUrl (d : String) : String := "#" ++ urlSafe d

/-- One row of `table_data` (lines 128–134). -/
structure RankedRow where
  rank : Nat
  department : String
  score : ℚ
  summary : String
  link : String
deriving DecidableEq, Repr

/-- One step of the stable descending insertion sort: place `p` after
every already-placed element whose score is ≥ `p`'s. -/
def insertScored (p : String × ℚ) :
    List (String × ℚ) → List (String × ℚ)
  | [] => [p]
  | q :: rest =>
      if p.2 ≤ q.2 then q :: insertScored p rest else p :: q :: rest

/-- `sorted(all_dept_scores.items(), key=lambda x: x[1], reverse=True)`
(line 122): stable sort, descending by score; equal scores keep the
insertion order of the dict. -/
def sortedByScoreDesc (l : List (String × ℚ)) : List (String × ℚ) :=
  l.foldl (fun acc p => insertScored p acc) []

/-- The `for i, (dept_name, score) in enumerate(sorted_depts, 1)` loop
(lines 124–134), carrying the 1-based counter explicitly. -/
def attachRanks (summaries : List (String × Option String)) :
    Nat → List (String × ℚ) → List RankedRow
  | _, [] => []
  | i, p :: rest =>
      { rank := i, department := p.1, score := p.2,
        summary := summaryFor summaries p.1,
        link := downloadUrl p.1 } :: attachRanks summaries (i + 1) rest

/-- Table assembly of `main` (lines 121–134): sort the score vector,
then build the rows with ranks 1.. and attached summaries/links. -/
def assembleTable (scores : List (String × ℚ))
    (summaries : List (String × Option String)) : List RankedRow :=
  attachRanks summaries 1 (sortedByScoreDesc scores)

/-- The ranked table `main` builds for extracted text `t`:
`assembleTable` applied to `classify_department`'s score vector and
`generate_summary`'s mapping. -/
def rankedTable (t : List Char) : List RankedRow :=
  assembleTable (dept_scores t) (generate_summary t)

/-- The classification-and-assembly pipeline of `main` on extracted
text `t`: primary department, priority result, and the ranked table. -/
def processText (t : List Char) :
    Option (String × (String × ℚ) × List RankedRow) :=
  (classify_department t).map
    (fun r => (r.1, classify_priority t, rankedTable t))

/-! ### Helper lemmas about the stable descending sort -/

/-- The score-descending, index-ascending-on-ties ordering on scored
pairs that the assembled table must satisfy. -/
def rowOrder (x y : String × ℚ) : Prop :=
  y.2 ≤ x.2 ∧ (x.2 = y.2 → catIdx x.1 < catIdx y.1)

theorem mem_insertScored {a p : String × ℚ} :
    ∀ {l : List (String × ℚ)}, a ∈ insertScored p l ↔ a = p ∨ a ∈ l
  | [] => by simp [insertScored]
  | q :: rest => by
      rw [insertScored]
      by_cases h : p.2 ≤ q.2
      · rw [if_pos h]
        simp [mem_insertScored (l := rest)]
        tauto
      · rw [if_neg h]
        simp

theorem insertScored_perm (p : String × ℚ) :
    ∀ (l : List (String × ℚ)), List.Perm (insertScored p l) (p :: l)
  | [] => List.Perm.refl _
  | q :: rest => by
      rw [insertScored]
      by_cases h : p.2 ≤ q.2
      · rw [if_pos h]
        exact ((insertScored_perm p rest).cons q).trans
          (List.Perm.swap p q rest)
      · rw [if_neg h]

theorem sort_aux_perm :
    ∀ (l acc : List (String × ℚ)),
      List.Perm (l.foldl (fun a p => insertScored p a) acc) (l ++ acc)
  | [], _ => by simp
  | p :: rest, acc => by
      rw [List.foldl_cons]
      exact ((sort_aux_perm rest (insertScored p acc)).trans
        (List.Perm.append_left rest (insertScored_perm p acc))).trans
        List.perm_middle

theorem sortedByScoreDesc_perm (l : List (String × ℚ)) :
    List.Perm (sortedByScoreDesc l) l := by
  simpa using sort_aux_perm l []

theorem pairwise_insertScored (p : String × ℚ) :
    ∀ (acc : List (String × ℚ)), acc.Pairwise rowOrder →
      (∀ q ∈ acc, catIdx q.1 < catIdx p.1) →
      (insertScored p acc).Pairwise rowOrder
  | [], _, _ => List.pairwise_singleton rowOrder p
  | q :: rest, hacc, hp => by
      rw [insertScored]
      rw [List.pairwise_cons] at hacc
      by_cases h : p.2 ≤ q.2
      · rw [if_pos h, List.pairwise_cons]
        refine ⟨fun a ha => ?_, ?_⟩
        · rcases mem_insertScored.mp ha with rfl | ha'
          · exact ⟨h, fun _ => hp q (List.mem_cons_self q rest)⟩
          · exact hacc.1 a ha'
        · exact pairwise_insertScored p rest hacc.2
            (fun q' hq' => hp q' (List.mem_cons_of_mem q hq'))
      · rw [if_neg h, List.pairwise_cons]
        have hqp : q.2 < p.2 := not_le.mp h
        refine ⟨fun a ha => ?_, List.pairwise_cons.mpr hacc⟩
        rcases List.mem_cons.mp ha with rfl | ha'
        · exact ⟨le_of_lt hqp, fun he => absurd he.symm (ne_of_lt hqp)⟩
        · have := hacc.1 a ha'
          exact ⟨le_of_lt (lt_of_le_of_lt this.1 hqp),
            fun he => absurd (he ▸ hqp) (lt_irrefl _ ∘ lt_of_le_of_lt this.1)⟩

theorem pairwise_sort_aux :
    ∀ (l acc : List (String × ℚ)),
      acc.Pairwise rowOrder →
      (∀ p ∈ l, ∀ q ∈ acc, catIdx q.1 < catIdx p.1) →
      l.Pairwise (fun x y => catIdx x.1 < catIdx y.1) →
      (l.foldl (fun a p => insertScored p a) acc).Pairwise rowOrder
  | [], _, hacc, _, _ => hacc
  | p :: rest, acc, hacc, hcross, hl => by
      rw [List.foldl_cons]
      rw [List.pairwise_cons] at hl
      refine pairwise_sort_aux rest (insertScored p acc) ?_ ?_ hl.2
      · exact pairwise_insertScored p acc hacc
          (fun q hq => hcross p (List.mem_cons_self p rest) q hq)
      · intro p' hp' q hq
        rcases mem_insertScored.mp hq with rfl | hq'
        · exact hl.1 p' hp'
        · exact hcross p' (List.mem_cons_of_mem p hp') q hq'

theorem pairwise_sortedByScoreDesc (l : List (String × ℚ))
    (hl : l.Pairwise (fun x y => catIdx x.1 < catIdx y.1)) :
    (sortedByScoreDesc l).Pairwise rowOrder :=
  pairwise_sort_aux l [] List.Pairwise.nil (by simp) hl

theorem head?_insertScored (p : String × ℚ) (acc : List (String × ℚ)) :
    (insertScored p acc).head? =
      match acc.head? with
      | none => some p
      | some q => if q.2 < p.2 then some p else some q := by
  cases acc with
  | nil => rfl
  | cons q rest =>
      rw [insertScored]
      by_cases h : p.2 ≤ q.2
      · rw [if_pos h]
        show some q = if q.2 < p.2 then some p else some q
        rw [if_neg (not_lt.mpr h)]
      · rw [if_neg h]
        show some p = if q.2 < p.2 then some p else some q
        rw [if_pos (not_le.mp h)]

theorem sort_aux_head? :
    ∀ (l acc : List (String × ℚ)),
      (l.foldl (fun a p => insertScored p a) acc).head? =
        l.foldl
          (fun o p =>
            match o with
            | none => some p
            | some q => if q.2 < p.2 then some p else some q)
          acc.head?
  | [], _ => rfl
  | p :: rest, acc => by
      rw [List.foldl_cons, List.foldl_cons, sort_aux_head? rest _,
        head?_insertScored]

/-- Python `max` over the score dict picks exactly the head of the
stable descending sort: the first key attaining the maximal score. -/
theorem maxByFirst_eq_head_sorted (l : List (String × ℚ)) :
    maxByFirst l = (sortedByScoreDesc l).head? := by
  rw [maxByFirst, sortedByScoreDesc, sort_aux_head? l []]
  rfl

/-! ### Helper lemmas about rank attachment -/

theorem attachRanks_length (s : List (String × Option String)) :
    ∀ (i : Nat) (l : List (String × ℚ)),
      (attachRanks s i l).length = l.length
  | _, [] => rfl
  | i, _ :: rest => by
      rw [attachRanks, List.length_cons, List.length_cons,
        attachRanks_length s (i + 1) rest]

theorem attachRanks_map_department (s : List (String × Option String)) :
    ∀ (i : Nat) (l : List (String × ℚ)),
      (attachRanks s i l).map (fun r => r.department) = l.map Prod.fst
  | _, [] => rfl
  | i, _ :: rest => by
      rw [attachRanks, List.map_cons, List.map_cons,
        attachRanks_map_department s (i + 1) rest]

theorem attachRanks_map_rank (s : List (String × Option String)) :
    ∀ (i : Nat) (l : List (String × ℚ)),
      (attachRanks s i l).map (fun r => r.rank) = List.range' i l.length
  | _, [] => rfl
  | i, _ :: rest => by
      rw [attachRanks, List.map_cons, List.length_cons, List.range'_succ,
        attachRanks_map_rank s (i + 1) rest]

theorem mem_attachRanks (s : List (String × Option String)) :
    ∀ (i : Nat) (l : List (String × ℚ)) (r : RankedRow),
      r ∈ attachRanks s i l →
      ∃ p ∈ l, r.department = p.1 ∧ r.score = p.2 ∧
        r.summary = summaryFor s p.1 ∧ r.link = downloadUrl p.1
  | _, [], _, h => absurd h (List.not_mem_nil _)
  | i, p :: rest, r, h => by
      rw [attachRanks] at h
      rcases List.mem_cons.mp h with rfl | h'
      · exact ⟨p, List.mem_cons_self p rest, rfl, rfl, rfl, rfl⟩
      · obtain ⟨q, hq, hd⟩ := mem_attachRanks s (i + 1) rest r h'
        exact ⟨q, List.mem_cons_of_mem p hq, hd⟩

theorem attachRanks_exists_of_mem (s : List (String × Option String)) :
    ∀ (i : Nat) (l : List (String × ℚ)) (p : String × ℚ),
      p ∈ l →
      ∃ r ∈ attachRanks s i l, r.department = p.1 ∧ r.score = p.2 ∧
        r.summary = summaryFor s p.1 ∧ r.link = downloadUrl p.1
  | _, [], _, h => absurd h (List.not_mem_nil _)
  | i, q :: rest, p, h => by
      rw [attachRanks]
      rcases List.mem_cons.mp h with rfl | h'
      · exact ⟨_, List.mem_cons_self _ _, rfl, rfl, rfl, rfl⟩
      · obtain ⟨r, hr, hd⟩ := attachRanks_exists_of_mem s (i + 1) rest p h'
        exact ⟨r, List.mem_cons_of_mem _ hr, hd⟩

theorem pairwise_attachRanks (s : List (String × Option String)) :
    ∀ (i : Nat) (l : List (String × ℚ)), l.Pairwise rowOrder →
      (attachRanks s i l).Pairwise
        (fun x y => y.score ≤ x.score ∧
          (x.score = y.score → catIdx x.department < catIdx y.department))
  | _, [], _ => List.Pairwise.nil
  | i, p :: rest, h => by
      rw [List.pairwise_cons] at h
      rw [attachRanks, List.pairwise_cons]
      refine ⟨fun r hr => ?_, pairwise_attachRanks s (i + 1) rest h.2⟩
      obtain ⟨q, hq, hd, hs, -, -⟩ := mem_attachRanks s (i + 1) rest r hr
      have hpq := h.1 q hq
      exact ⟨hs ▸ hpq.1, fun he => by
        rw [hd]
        exact hpq.2 (by rw [← hs]; exact he)⟩

theorem dept_scores_labels (t : List Char) :
    (dept_scores t).map Prod.fst = departments := rfl

theorem dept_scores_length (t : List Char) :
    (dept_scores t).length = departments.length := rfl

theorem dept_scores_pairwise_idx (t : List Char) :
    (dept_scores t).Pairwise (fun x y => catIdx x.1 < catIdx y.1) := by
  have h2 : departments.Pairwise (fun a b => catIdx a < catIdx b) := by decide
  rw [← dept_scores_labels t] at h2
  exact (List.pairwise_map (f := Prod.fst)).mp h2

theorem dept_scores_bounds (t : List Char) :
    ∀ p ∈ dept_scores t, 0 ≤ p.2 ∧ p.2 ≤ 1 := by
  intro p hp
  simp only [dept_scores, List.mem_cons, List.not_mem_nil, or_false] at hp
  rcases hp with rfl | rfl | rfl | rfl | rfl | rfl | rfl | rfl | rfl | rfl | rfl <;>
    dsimp only <;> split_ifs <;> exact ⟨by decide, by decide⟩

/-! ### Claim theorems -/

/-- C1: for every input text, the ranked table is sorted by score
descending, and whenever two rows have equal scores the earlier row's
department has a strictly lower canonical catalog index than the later
row's department. -/
theorem C1_sort_correct (t : List Char) :
    (rankedTable t).Pairwise
      (fun x y => y.score ≤ x.score ∧
        (x.score = y.score →
          catIdx x.department < catIdx y.department)) := by
  unfold rankedTable assembleTable
  exact pairwise_attachRanks _ 1 _
    (pairwise_sortedByScoreDesc _ (dept_scores_pairwise_idx t))

/-- Witness for C1: the property evaluated on the empty text. -/
theorem C1_witness :
    (rankedTable []).Pairwise
      (fun x y => y.score ≤ x.score ∧
        (x.score = y.score →
          catIdx x.department < catIdx y.department)) :=
  C1_sort_correct []

/-- C2 counterexample: on the empty text the score vector is not
uniform (Engineering Drawings gets 0.30, Legal Opinions 0.25) and the
primary department is "Safety Circulars", not `catalog[0]`
("Engineering Drawings"). -/
theorem C2_counterexample :
    ("Engineering Drawings", mkRat 30 100) ∈ dept_scores (String.toList "") ∧
    ("Legal Opinions", mkRat 25 100) ∈ dept_scores (String.toList "") ∧
    mkRat 30 100 ≠ mkRat 25 100 ∧
    (classify_department (String.toList "")).map (fun r => r.1) =
      some "Safety Circulars" ∧
    departments.head? = some "Engineering Drawings" ∧
    ("Safety Circulars" : String) ≠ "Engineering Drawings" := by decide

/-- C2 amended: on the empty text the scorer returns the fixed
per-department baseline vector (which is not uniform), the primary
department is "Safety Circulars" (the argmax, baseline 0.40, catalog
index 4), and the priority level is Low. -/
theorem C2_amended :
    dept_scores (String.toList "") =
      [("Engineering Drawings", mkRat 30 100),
       ("Legal Opinions", mkRat 25 100),
       ("Finance", mkRat 35 100),
       ("HR Policies", mkRat 28 100),
       ("Safety Circulars", mkRat 40 100),
       ("Board Meeting Minutes", mkRat 32 100),
       ("Maintenance Job Cards", mkRat 22 100),
       ("Incident Reports", mkRat 26 100),
       ("Vendor Invoices", mkRat 24 100),
       ("Purchase Order Correspondence", mkRat 20 100),
       ("Regulatory Directives", mkRat 18 100)] ∧
    (classify_department (String.toList "")).map (fun r => r.1) =
      some "Safety Circulars" ∧
    catIdx "Safety Circulars" = 4 ∧
    (classify_priority (String.toList "")).1 = "Low" := by decide

/-- C3 counterexample: a text containing both "urgent" and "important"
is classified High, not the conservative Low the claim requires. -/
theorem C3_counterexample :
    containsTok "urgent".toList
      (lower (String.toList "this is urgent and important")) = true ∧
    containsTok "important".toList
      (lower (String.toList "this is urgent and important")) = true ∧
    (classify_priority (String.toList "this is urgent and important")).1
      ≠ "Low" := by decide

/-- C3 amended: for any text containing both "urgent" and "important"
the priority classifier returns High (the `urgent` branch is tested
first and wins). -/
theorem C3_amended (t : List Char)
    (h1 : containsTok "urgent".toList (lower t) = true)
    (_h2 : containsTok "important".toList (lower t) = true) :
    (classify_priority t).1 = "High" := by
  rw [classify_priority]
  simp only [h1, if_true]

/-- Witness for C3: the amended claim evaluated on a concrete text
containing both keywords. -/
theorem C3_witness :
    (classify_priority (String.toList "urgent and important")).1 =
      "High" :=
  C3_amended (String.toList "urgent and important")
    (by decide) (by decide)

/-- C4: the ranked output is well-formed: one row per catalog
department (the departments of the rows are a permutation of the
duplicate-free catalog), ranks are exactly 1..N in order, and every
score lies in [0, 1]. -/
theorem C4_wellformed (t : List Char) :
    (rankedTable t).length = departments.length ∧
    List.Perm ((rankedTable t).map (fun r => r.department)) departments ∧
    departments.Nodup ∧
    (rankedTable t).map (fun r => r.rank) =
      List.range' 1 departments.length ∧
    ((rankedTable t).all
      (fun r => decide (0 ≤ r.score) && decide (r.score ≤ 1))) = true := by
  have hlen : (sortedByScoreDesc (dept_scores t)).length =
      departments.length :=
    (sortedByScoreDesc_perm _).length_eq.trans (dept_scores_length t)
  refine ⟨?_, ?_, by decide, ?_, ?_⟩
  · rw [rankedTable, assembleTable, attachRanks_length, hlen]
  · rw [rankedTable, assembleTable, attachRanks_map_department]
    have := (sortedByScoreDesc_perm (dept_scores t)).map Prod.fst
    rw [dept_scores_labels t] at this
    exact this
  · rw [rankedTable, assembleTable, attachRanks_map_rank, hlen]
  · rw [List.all_eq_true]
    intro r hr
    rw [rankedTable, assembleTable] at hr
    obtain ⟨p, hp, -, hs, -, -⟩ := mem_attachRanks _ _ _ r hr
    have hp' : p ∈ dept_scores t :=
      ((sortedByScoreDesc_perm _).mem_iff).mp hp
    have hb := dept_scores_bounds t p hp'
    rw [hs]
    simp [hb.1, hb.2]

/-- Witness for C4: the well-formedness conjunction evaluated on the
empty text. -/
theorem C4_witness :
    (rankedTable []).length = departments.length ∧
    List.Perm ((rankedTable []).map (fun r => r.department)) departments ∧
    departments.Nodup ∧
    (rankedTable []).map (fun r => r.rank) =
      List.range' 1 departments.length ∧
    ((rankedTable []).all
      (fun r => decide (0 ≤ r.score) && decide (r.score ≤ 1))) = true :=
  C4_wellformed []

/-- C5: the primary department (and its score) returned by
`classify_department` is exactly the department (and score) of the row
at rank 1 of the ranked table, and the classification succeeds; both
computations pick the first key attaining the maximal score, i.e. the
tied department of lowest canonical catalog index. -/
theorem C5_primary_is_rank1 (t : List Char) :
    (classify_department t).map (fun r => r.1) =
      ((rankedTable t).head?).map (fun r => r.department) ∧
    (classify_department t).map (fun r => r.2.1) =
      ((rankedTable t).head?).map (fun r => r.score) ∧
    ((rankedTable t).head?).map (fun r => r.rank) = some 1 ∧
    (classify_department t).isSome = true := by
  have hlen : (sortedByScoreDesc (dept_scores t)).length =
      departments.length :=
    (sortedByScoreDesc_perm _).length_eq.trans (dept_scores_length t)
  cases hs : sortedByScoreDesc (dept_scores t) with
  | nil => rw [hs] at hlen; exact absurd hlen (by decide)
  | cons p rest =>
      have hmax : maxByFirst (dept_scores t) = some p := by
        rw [maxByFirst_eq_head_sorted, hs]; rfl
      rw [rankedTable, assembleTable, hs, classify_department, hmax,
        attachRanks]
      exact ⟨rfl, rfl, rfl, rfl⟩

/-- C6: the pipeline is deterministic: classifying and assembling the
same text twice yields the identical score vector, table and result
(the embedding is a pure function of the text). -/
theorem C6_deterministic (t : List Char) :
    dept_scores t = dept_scores t ∧
    rankedTable t = rankedTable t ∧
    processText t = processText t :=
  ⟨rfl, rfl, rfl⟩

/-- C7: any text containing "urgent" is classified High with
confidence 0.9 ≥ 0.8; texts with "important" but not "urgent" get
Medium, texts with neither get Low; and in the source's ordered
priority list High precedes Medium precedes Low. -/
theorem C7_priority_levels (t : List Char) :
    (containsTok "urgent".toList (lower t) = true →
        classify_priority t = ("High", mkRat 9 10) ∧
        mkRat 8 10 ≤ (classify_priority t).2) ∧
    (containsTok "urgent".toList (lower t) = false →
      containsTok "important".toList (lower t) = true →
        classify_priority t = ("Medium", mkRat 7 10)) ∧
    (containsTok "urgent".toList (lower t) = false →
      containsTok "important".toList (lower t) = false →
        classify_priority t = ("Low", mkRat 6 10)) ∧
    priorities.findIdx (fun p => p == "high") <
      priorities.findIdx (fun p => p == "medium") ∧
    priorities.findIdx (fun p => p == "medium") <
      priorities.findIdx (fun p => p == "low") := by
  refine ⟨fun h1 => ?_, fun h1 h2 => ?_, fun h1 h2 => ?_,
    by decide, by decide⟩
  · have hcp : classify_priority t = ("High", mkRat 9 10) := by
      simp only [classify_priority, h1, if_true]
    exact ⟨hcp, by rw [hcp]; decide⟩
  · simp only [classify_priority, h1, h2, if_true, if_false]
    rfl
  · simp only [classify_priority, h1, h2, if_true, if_false]
    rfl

/-- Witness for C7: the three branches evaluated on concrete texts of
the three input classes. -/
theorem C7_witness :
    (classify_priority (String.toList "urgent") = ("High", mkRat 9 10) ∧
      mkRat 8 10 ≤ (classify_priority (String.toList "urgent")).2) ∧
    classify_priority (String.toList "important") =
      ("Medium", mkRat 7 10) ∧
    classify_priority (String.toList "routine note") =
      ("Low", mkRat 6 10) :=
  ⟨(C7_priority_levels (String.toList "urgent")).1 (by decide),
   (C7_priority_levels (String.toList "important")).2.1
     (by decide) (by decide),
   (C7_priority_levels (String.toList "routine note")).2.2.1
     (by decide) (by decide)⟩

/-- C8: if the summary mapping has no entry for a cataloged department,
or the entry lacks the `detailed` field, assembly still produces all N
rows and that department's row carries the fallback placeholder
summary. -/
theorem C8_missing_summary (t : List Char)
    (summaries : List (String × Option String)) (d : String)
    (hmem : d ∈ departments)
    (hmiss : summaries.lookup d = none ∨ summaries.lookup d = some none) :
    (assembleTable (dept_scores t) summaries).length =
      departments.length ∧
    ((assembleTable (dept_scores t) summaries).any
      (fun r => r.department == d &&
        r.summary == "No summary available")) = true := by
  have hfall : summaryFor summaries d = "No summary available" := by
    rw [summaryFor]
    rcases hmiss with h | h <;> rw [h]
  constructor
  · rw [assembleTable, attachRanks_length]
    exact (sortedByScoreDesc_perm _).length_eq.trans (dept_scores_length t)
  · rw [List.any_eq_true]
    have hd : d ∈ (dept_scores t).map Prod.fst := by
      rw [dept_scores_labels t]; exact hmem
    obtain ⟨p, hp, hpd⟩ := List.mem_map.mp hd
    have hp' : p ∈ sortedByScoreDesc (dept_scores t) :=
      ((sortedByScoreDesc_perm _).mem_iff).mpr hp
    obtain ⟨r, hr, hrd, -, hrs, -⟩ :=
      attachRanks_exists_of_mem summaries 1 _ p hp'
    refine ⟨r, hr, ?_⟩
    rw [hrd, hrs, hpd, hfall]
    simp

/-- Witness for C8: assembly on the empty text with an empty summary
mapping still yields all 11 rows and gives Finance the placeholder. -/
theorem C8_witness :
    (assembleTable (dept_scores []) []).length = departments.length ∧
    ((assembleTable (dept_scores []) []).any
      (fun r => r.department == "Finance" &&
        r.summary == "No summary available")) = true :=
  C8_missing_summary [] [] "Finance" (by decide) (Or.inl rfl)

/-- C9: every row's artifact link is the deterministic URL-safe
transform of its department label, and the transform is collision-free
over the catalog (the transformed labels are pairwise distinct). -/
theorem C9_links (t : List Char) :
    ((rankedTable t).all
      (fun r => r.link == "#" ++ urlSafe r.department)) = true ∧
    (departments.map urlSafe).Nodup := by
  refine ⟨?_, by decide⟩
  rw [List.all_eq_true]
  intro r hr
  rw [rankedTable, assembleTable] at hr
  obtain ⟨p, -, hd, -, -, hl⟩ := mem_attachRanks _ _ _ r hr
  rw [hl, hd, downloadUrl]
  simp

/-- Witness for C9: the link property evaluated on the empty text. -/
theorem C9_witness :
    ((rankedTable []).all
      (fun r => r.link == "#" ++ urlSafe r.department)) = true ∧
    (departments.map urlSafe).Nodup :=
  C9_links []

/-- C10: the summary generator ignores its text argument: any two texts
produce the identical mapping, whose keys are exactly the eleven
catalog departments. -/
theorem C10_summary_ignores_text (t1 t2 : List Char) :
    generate_summary t1 = generate_summary t2 ∧
    (generate_summary t1).map Prod.fst = departments ∧
    (generate_summary t1).length = 11 :=
  ⟨rfl, rfl, rfl⟩
